import Mathlib

/-!
Verification of the depictio-hackathon real-time change-detection pipeline.

The development shallowly embeds the pipeline components:
* `fastapi_service/services/csv_monitor.py` — the CSV source watcher
  (`CSVMonitorHandler`: debounce, growth/reset detection, event emission);
* `fastapi_service/websocket/manager.py` — the websocket broadcaster
  (`ConnectionManager`: registries, broadcast, pruning on failed delivery);
* `src/callbacks.py` — the per-viewer Dash callbacks (event log, freeze
  gate, new-row marking, memoized UMAP cache keys).

Rows, files and times are modelled explicitly: a CSV read is an
`Option (List Row)` (with `none` for a raised read exception), wall-clock
times are rationals, and each callback is a pure function of its inputs.
-/

/-! ### Data model: rows and row summaries (csv_monitor.py lines 60-67) -/

/-- One data row of `data/phenobase.csv` (after the two header lines),
restricted to the columns the pipeline reads: the human-readable
`czi_filename`, the position `pos`, the unique patch path
`patches_2d_ch0_tl_exp_path`, and the `timestamp` / `object_count`
columns used by the time-series and table views. -/
structure Row where
  czi_filename : String
  pos : Int
  patches_2d_ch0_tl_exp_path : String
  timestamp : Int
  object_count : Int
deriving DecidableEq, Repr

/-- The per-row summary shipped inside a change event
(csv_monitor.py lines 62-66): `filename`, `pos`, `patch_path`. -/
structure RowSummary where
  filename : String
  pos : Int
  patch_path : String
deriving DecidableEq, Repr

/-- Builds the `info` dict of csv_monitor.py lines 62-66 from a row. -/
def rowInfo (r : Row) : RowSummary :=
  { filename := r.czi_filename
    pos := r.pos
    patch_path := r.patches_2d_ch0_tl_exp_path }

/-! ### CSVMonitorHandler (csv_monitor.py lines 18-77) -/

/-- Monitor state: `self.last_count` (the Baseline) and
`self.last_modified` (time of the last debounce-surviving signal). -/
structure MonitorState where
  last_count : Nat
  last_modified : Rat
deriving DecidableEq, Repr

/-- `self.debounce_delay = 0.5` (csv_monitor.py line 26). -/
def debounce_delay : Rat := 1 / 2

/-- `CSVMonitorHandler._get_row_count` (lines 28-35): the CSV read is an
`Option (List Row)`; a raised read exception (`none`) is caught and the
method returns `0`. -/
def get_row_count (read : Option (List Row)) : Nat :=
  match read with
  | some df => df.length
  | none => 0

/-- The argument triple the monitor passes to
`manager.notify_new_images(new_count, current_count, new_rows_info)`
(csv_monitor.py lines 72-75). -/
structure ChangeEvent where
  addedCount : Nat
  totalCount : Nat
  newRows : List RowSummary
deriving DecidableEq, Repr

/-- The detection cycle inside the `try` block of
`CSVMonitorHandler.on_modified` (csv_monitor.py lines 47-77).
`read1` is the `_get_row_count` read (line 48, exceptions swallowed to a
count of 0); `read2` is the second `pd.read_csv` (line 57, whose
exception is caught at line 76, abandoning the cycle). `df.tail(n)` is
the last `n` rows, i.e. `df.drop (df.length - n)`. -/
def detect_cycle (s : MonitorState) (read1 read2 : Option (List Row)) :
    MonitorState × Option ChangeEvent :=
  let current_count := get_row_count read1
  if current_count < s.last_count then
    ({ s with last_count := current_count }, none)
  else if current_count > s.last_count then
    match read2 with
    | none => (s, none)
    | some df =>
      let new_count := current_count - s.last_count
      let new_rows := df.drop (df.length - new_count)
      let new_rows_info := new_rows.map rowInfo
      ({ s with last_count := current_count },
        some { addedCount := new_count
               totalCount := current_count
               newRows := new_rows_info })
  else (s, none)

/-- A raw filesystem event as seen by `on_modified` (line 39). -/
structure FSEvent where
  is_directory : Bool
  src_path : String
deriving DecidableEq, Repr

/-- The two early-return guards of `on_modified` (lines 39-44): the event
must be a file event on `phenobase.csv` (Python's `str.endswith`, the
character-suffix test), and must arrive at least `debounce_delay` after
the last surviving signal. -/
def signal_accepted (s : MonitorState) (ev : FSEvent) (t : Rat) : Bool :=
  (!ev.is_directory) && "phenobase.csv".data.isSuffixOf ev.src_path.data
    && !(t - s.last_modified < debounce_delay)

/-- `CSVMonitorHandler.on_modified` (csv_monitor.py lines 37-77): guard
checks, `self.last_modified = current_time`, then the detection cycle. -/
def on_modified (s : MonitorState) (ev : FSEvent) (t : Rat)
    (read1 read2 : Option (List Row)) : MonitorState × Option ChangeEvent :=
  if signal_accepted s ev t then
    detect_cycle { s with last_modified := t } read1 read2
  else (s, none)

/-- One raw filesystem-modify signal together with the file contents the
two CSV reads of that cycle would observe. -/
structure Signal where
  ev : FSEvent
  t : Rat
  read1 : Option (List Row)
  read2 : Option (List Row)

/-- Runs `on_modified` over a sequence of raw signals, returning the
final state, the emitted change events in order, and the number of
signals that survived the guards (processed detection cycles). -/
def runSignals : MonitorState → List Signal → MonitorState × List ChangeEvent × Nat
  | s, [] => (s, [], 0)
  | s, g :: rest =>
    let accepted := signal_accepted s g.ev g.t
    let step := on_modified s g.ev g.t g.read1 g.read2
    let next := runSignals step.1 rest
    (next.1, step.2.toList ++ next.2.1, (if accepted then 1 else 0) + next.2.2)

/-! ### ConnectionManager (websocket/manager.py lines 13-68) -/

/-- A websocket connection, identified abstractly. -/
abbrev WS := Nat

/-- State of `ConnectionManager`: the global `active_connections` set and
the per-channel registries `channels`. Python sets and dicts are
modelled as lists and association lists. -/
structure ConnManager where
  active_connections : List WS
  channels : List (String × List WS)
deriving DecidableEq

/-- Removes `ws` from the set stored under `ch`, deleting the entry when
the set becomes empty (manager.py lines 33-36). -/
def removeFromChannel (chs : List (String × List WS)) (ch : String) (ws : WS) :
    List (String × List WS) :=
  chs.foldr
    (fun p acc =>
      if p.1 = ch then
        let s := p.2.filter (· ≠ ws)
        if s.isEmpty then acc else (p.1, s) :: acc
      else p :: acc)
    []

/-- `ConnectionManager.disconnect` (manager.py lines 30-37): always
discard from `active_connections`; additionally discard from
`channels[channel]` only when a channel is given. -/
def disconnect (m : ConnManager) (ws : WS) (channel : Option String) : ConnManager :=
  let active := m.active_connections.filter (· ≠ ws)
  match channel with
  | none => { m with active_connections := active }
  | some ch =>
    { active_connections := active
      channels := removeFromChannel m.channels ch ws }

/-- `ConnectionManager.broadcast` (manager.py lines 39-53). Delivery
success for each target is given by `ok`; `send_text` failures are
collected into `dead_connections`, which are then disconnected with the
same `channel` argument. Returns the new state and the list of targets
that received the message. -/
def broadcast (m : ConnManager) (ok : WS → Bool) (channel : Option String) :
    ConnManager × List WS :=
  let targets :=
    match channel with
    | some ch => (m.channels.lookup ch).getD []
    | none => m.active_connections
  let delivered := targets.filter ok
  let dead_connections := targets.filter (fun c => !ok c)
  (dead_connections.foldl (fun acc c => disconnect acc c channel) m, delivered)

/-- The wire message built by `ConnectionManager.notify_new_images`
(manager.py lines 55-65). -/
structure WSMessage where
  type : String
  count : Nat
  total : Nat
  images : List RowSummary
  timestamp : String
deriving DecidableEq, Repr

/-- `ConnectionManager.notify_new_images` (manager.py lines 55-65):
builds the broadcast payload for a detected increment; `now` stands for
`datetime.utcnow().isoformat()`. -/
def notify_new_images (count total : Nat) (new_rows_info : List RowSummary)
    (now : String) : WSMessage :=
  { type := "new_image"
    count := count
    total := total
    images := new_rows_info
    timestamp := now }

/-! ### Dash client callbacks (src/callbacks.py) -/

/-- The clientside websocket message handler (callbacks.py lines 47-71):
accepts only messages whose type discriminator is the string
expected by the app, reshaping them into the ws-message-store payload. -/
structure WSStore where
  count : Nat
  total : Nat
  images : List RowSummary
deriving DecidableEq, Repr

/-- Clientside callback writing `ws-message-store` (lines 47-71): a
parsed message is stored only when `data.type === 'new_image'`. -/
def ws_message_store (m : WSMessage) : Option WSStore :=
  if m.type = "new_image" then
    some { count := m.count, total := m.total, images := m.images }
  else none

/-- One retained entry of the event log (`event-log-store` data,
callbacks.py lines 156-162). -/
structure EventData where
  count : Nat
  total : Nat
  timestamp : String
  images : List RowSummary
  is_new : Bool
deriving DecidableEq, Repr

/-- The event-log-store update of `update_event_log` (callbacks.py lines
156-172): the new entry (with `is_new = True`) is prepended, all prior
entries are marked `is_new = False`, and only the first 14 prior entries
are kept (`[new_event_data] + existing_events[:14]`). `now` stands for
`datetime.now().strftime("%H:%M:%S")` (line 149). -/
def update_event_log_store (now : String) (w : WSStore) (existing : List EventData) :
    List EventData :=
  let new_event_data : EventData :=
    { count := w.count, total := w.total, timestamp := now
      images := w.images, is_new := true }
  if existing.isEmpty then [new_event_data]
  else new_event_data :: (existing.map (fun e => { e with is_new := false })).take 14

/-- The six outputs of `update_event_log` (callbacks.py line 270): the
rendered event list (modelled by its data), the count badge, the stored
events, the pending-refresh flag, the pending-badge style display value,
and the new-rows store. -/
structure EventLogOut where
  events : List EventData
  event_count : Nat
  pending_flag : Bool
  badge_display : String
  new_rows : List String
deriving DecidableEq, Repr

/-- `update_event_log` (callbacks.py lines 140-270, rendering of the
Mantine components elided in favour of the data they render): returns
`none` for the no-update early exit. The new-rows store receives the
`filename` field of each image of this event (lines 151-153); the
pending flag is `not frozen` and the badge display is unconditionally
`"inline-block"` (line 270). -/
def update_event_log (ws_data : Option WSStore) (existing_events : List EventData)
    (_pending : Bool) (_existing_new_rows : List String) (frozen : Bool)
    (now : String) : Option EventLogOut :=
  match ws_data with
  | none => none
  | some w =>
    let new_row_filenames := w.images.map (fun img => img.filename)
    let all_events := update_event_log_store now w existing_events
    some { events := all_events
           event_count := all_events.length
           pending_flag := !frozen
           badge_display := "inline-block"
           new_rows := new_row_filenames }

/-- Runs `update_event_log_store` over a sequence of received events
(each paired with its formatted arrival time), starting from an empty
log, as successive callback invocations thread the store. -/
def runEvents (evs : List (WSStore × String)) : List EventData :=
  evs.foldl (fun acc p => update_event_log_store p.2 p.1 acc) []

/-- Which Dash input triggered a callback (`ctx.triggered_id`). -/
inductive Trigger where
  | ws
  | patchDropdown
  | coordDropdown
  | updateBtn
  | resetBtn
  | dataStore
  | umapSelected
  | umapClick
deriving DecidableEq, Repr

/-- The per-row "is new" marking of the live views (callbacks.py lines
603-609 and 844-856): a row is new iff its
`patches_2d_ch0_tl_exp_path` is among the identities extracted from the
current websocket message. -/
def mark_is_new (df : List Row) (new_rows_set : List String) : List (Row × Bool) :=
  df.map (fun r => (r, new_rows_set.contains r.patches_2d_ch0_tl_exp_path))

/-- Insertion step for the stable ascending timestamp sort. -/
def insertByTs (r : Row) : List Row → List Row
  | [] => [r]
  | x :: xs => if r.timestamp ≤ x.timestamp then r :: x :: xs else x :: insertByTs r xs

/-- `df.sort_values('timestamp')` (callbacks.py line 597). -/
def sortByTs (l : List Row) : List Row := l.foldr insertByTs []

/-- Insertion step for the descending timestamp sort. -/
def insertByTsDesc (r : Row) : List Row → List Row
  | [] => [r]
  | x :: xs => if r.timestamp ≥ x.timestamp then r :: x :: xs else x :: insertByTsDesc r xs

/-- `df.sort_values('timestamp', ascending=False)` (callbacks.py
lines 798-809). -/
def sortByTsDesc (l : List Row) : List Row := l.foldr insertByTsDesc []

/-- Output of `update_time_series`: the no-update pair, the empty-figure
pair, or a built plot (modelled by its marked, sorted points and the
`total_points` of the timeseries store). -/
inductive TSOut where
  | noUpdate
  | emptyFig
  | plot (points : List (Row × Bool)) (total_points : Nat)
deriving DecidableEq, Repr

/-- `update_time_series` (callbacks.py lines 531-722, plotly figure
construction elided in favour of the marked point data it renders).
`file` is the dataframe `load_phenobase_data()` returns at invocation
time. On a websocket trigger the freeze gate is checked first (lines
557-561); then the message type, then the patch-path identities are
extracted (line 569). -/
def update_time_series (trigger : Trigger) (_patch_type : Option String)
    (coordinate : Option Int) (ws_message : Option WSMessage)
    (frozen : Bool) (file : List Row) : TSOut :=
  match trigger, ws_message with
  | Trigger.ws, some m =>
    if frozen then TSOut.noUpdate
    else if m.type ≠ "new_image" then TSOut.noUpdate
    else update_time_series_body coordinate (m.images.map (fun img => img.patch_path)) file
  | _, _ => update_time_series_body coordinate [] file
where
  /-- The shared tail of the callback (lines 575-716): filter by
  coordinate, sort by timestamp, mark the new points. -/
  update_time_series_body (coordinate : Option Int) (ws_new_filenames : List String)
      (file : List Row) : TSOut :=
    match coordinate with
    | none => TSOut.emptyFig
    | some c =>
      let df := file.filter (fun r => r.pos = c)
      if df.isEmpty then TSOut.emptyFig
      else
        let sorted := sortByTs df
        TSOut.plot (mark_is_new sorted ws_new_filenames) sorted.length

/-- Output of `update_table`: the no-update triple or the table rows
(with their "is new" marks) and the row-count caption. -/
inductive TableOut where
  | noUpdate
  | table (rows : List (Row × Bool)) (row_count : String)
deriving DecidableEq, Repr

/-- `update_table` (callbacks.py lines 727-865, AG Grid column
definitions elided in favour of the row data). On a websocket trigger
with a coordinate selected, the freeze gate is checked first (lines
756-760), then the message type; new-row marks come from the patch-path
identities of the message (lines 767-768 and 844-856). -/
def update_table (trigger : Trigger) (selected_data : Option (List Nat))
    (click_data : Option Nat) (stored_data : Option (List Row))
    (ws_message : Option WSMessage) (coordinate : Option Int)
    (frozen : Bool) (file : List Row) : TableOut :=
  match trigger, ws_message, coordinate with
  | Trigger.ws, some m, some c =>
    if frozen then TableOut.noUpdate
    else if m.type ≠ "new_image" then TableOut.noUpdate
    else
      let ws_new_filenames := m.images.map (fun img => img.patch_path)
      let filtered_df := file.filter (fun r => r.pos = c)
      if filtered_df.isEmpty then TableOut.table [] "0 rows"
      else update_table_body Trigger.ws selected_data click_data filtered_df ws_new_filenames
  | _, _, _ =>
    match stored_data with
    | some df => update_table_body trigger selected_data click_data df []
    | none => TableOut.table [] "0 rows"
where
  /-- The selection and marking tail of the callback (lines 791-865). -/
  update_table_body (trigger : Trigger) (selected_data : Option (List Nat))
      (click_data : Option Nat) (df : List Row) (ws_new_filenames : List String) :
      TableOut :=
    let selected_df :=
      if trigger = Trigger.ws then sortByTsDesc df
      else if trigger = Trigger.resetBtn then sortByTsDesc df
      else
        match selected_data with
        | some idxs =>
          if idxs.isEmpty then df.take 20 else idxs.filterMap (fun i => df.get? i)
        | none =>
          match click_data with
          | some i => (df.get? i).toList
          | none => sortByTsDesc df
    let table_data := mark_is_new selected_df ws_new_filenames
    let new_count := (table_data.filter (fun p => p.2)).length
    let base_count := Nat.repr table_data.length ++ " of " ++ Nat.repr df.length ++ " rows"
    let row_count :=
      if new_count > 0 then base_count ++ " (" ++ Nat.repr new_count ++ " new)"
      else base_count
    TableOut.table table_data row_count

/-- The memoization key of `update_umap_and_data` (callbacks.py line
418): the filter dimensions plus the current filtered row count as
growth discriminator. -/
def umap_cache_key (patch_type : String) (coordinate : Int) (n : Nat) : String :=
  "umap_" ++ patch_type ++ "_" ++ toString coordinate ++ "_" ++ Nat.repr n

/-- The memoization key of `filter_by_time_range` (callbacks.py line
970): the filter dimensions plus the explicit time-window bounds as
growth discriminator. -/
def time_filter_cache_key (patch_type : String) (coordinate : Int)
    (start_iso end_iso : String) : String :=
  "umap_" ++ patch_type ++ "_" ++ toString coordinate ++ "_" ++ start_iso ++ "_" ++ end_iso

/-- Modelled from the spec: the memoization service behind the
`cache.memoize` decorator of flask-caching used at callbacks.py lines
420-426 and 972-978 (the library itself is outside `src/`), per the
spec §4.4 `getOrCompute` contract — on a hit the stored result is
returned and the compute function is not invoked; on a miss the freshly
computed `value` is stored. The `Bool` component records whether the
compute function was invoked on this call. -/
def getOrCompute {V : Type} (cache : List (String × V)) (key : String) (value : V) :
    List (String × V) × V × Bool :=
  match cache.lookup key with
  | some v => (cache, v, false)
  | none => ((key, value) :: cache, value, true)

/-! ### Helper lemmas: the detection cycle -/

/-- Growth branch of the detection cycle: with a consistent file across
both reads, a count above the Baseline emits one event carrying the
tail delta and commits the new Baseline. -/
theorem detect_cycle_growth (s : MonitorState) (file : List Row)
    (h : s.last_count < file.length) :
    detect_cycle s (some file) (some file) =
      ({ s with last_count := file.length },
        some { addedCount := file.length - s.last_count
               totalCount := file.length
               newRows := (file.drop s.last_count).map rowInfo }) := by
  have h1 : ¬ file.length < s.last_count := by omega
  simp only [detect_cycle, get_row_count]
  rw [if_neg h1, if_pos h, Nat.sub_sub_self (Nat.le_of_lt h)]

/-- Reset branch of the detection cycle: a count below the Baseline
re-baselines and emits nothing. -/
theorem detect_cycle_reset (s : MonitorState) (file : List Row)
    (h : file.length < s.last_count) :
    detect_cycle s (some file) (some file) =
      ({ s with last_count := file.length }, none) := by
  simp only [detect_cycle, get_row_count]
  rw [if_pos h]

/-- A failed first read is coerced to a count of 0: nothing is emitted,
but the Baseline becomes 0 (reset path when it was positive). -/
theorem detect_cycle_read1_none (s : MonitorState) (read2 : Option (List Row)) :
    (detect_cycle s none read2).2 = none ∧
    (detect_cycle s none read2).1.last_count = 0 ∧
    (detect_cycle s none read2).1.last_modified = s.last_modified := by
  by_cases h0 : 0 < s.last_count
  · simp only [detect_cycle, get_row_count]
    rw [if_pos h0]
    exact ⟨rfl, rfl, rfl⟩
  · have hz : s.last_count = 0 := by omega
    simp [detect_cycle, get_row_count, hz]

/-- A failed second (tail) read abandons the cycle: the state, Baseline
included, is untouched and nothing is emitted. -/
theorem detect_cycle_read2_none (s : MonitorState) (file : List Row)
    (h : s.last_count < file.length) :
    detect_cycle s (some file) none = (s, none) := by
  have h1 : ¬ file.length < s.last_count := by omega
  simp only [detect_cycle, get_row_count]
  rw [if_neg h1, if_pos h]

/-- A concrete data row used by witnesses. -/
def mkRow (i : Nat) : Row :=
  { czi_filename := "f" ++ Nat.repr i
    pos := Int.ofNat i
    patches_2d_ch0_tl_exp_path := "p" ++ Nat.repr i
    timestamp := Int.ofNat i
    object_count := 0 }

/-- A concrete file of `n` distinct rows used by witnesses. -/
def mkRows (n : Nat) : List Row := (List.range n).map mkRow

/-- A concrete modify event on the tracked file, used by witnesses. -/
def evCSV : FSEvent := { is_directory := false, src_path := "data/phenobase.csv" }

/-- A signal on the tracked file arriving at least `debounce_delay`
after the last surviving one passes both guards. -/
theorem signal_accepted_of (s : MonitorState) (ev : FSEvent) (t : Rat)
    (h1 : ev.is_directory = false)
    (h2 : "phenobase.csv".data.isSuffixOf ev.src_path.data = true)
    (h3 : debounce_delay ≤ t - s.last_modified) :
    signal_accepted s ev t = true := by
  simp [signal_accepted, h1, h2, not_lt.mpr h3]

/-! ### C1 — read-failure semantics of a detection cycle -/

/-- C1 counterexample. The claim says a cycle whose source read fails
leaves the Baseline unchanged. In the code `_get_row_count` swallows the
exception and returns 0, so at Baseline 20 a failed read takes the reset
path: nothing is emitted but the Baseline drops from 20 to 0. -/
theorem C1_counterexample :
    (detect_cycle { last_count := 20, last_modified := 0 } none none).2 = none ∧
    (detect_cycle { last_count := 20, last_modified := 0 } none none).1.last_count = 0 ∧
    (detect_cycle { last_count := 20, last_modified := 0 } none none).1.last_count ≠ 20 := by
  decide

/-- C1 amended: a detection cycle whose initial row-count read fails
emits no event but sets the Baseline to 0 (the failed read is coerced to
a count of 0); only a cycle whose second (tail) read fails is abandoned
with the Baseline unchanged. -/
theorem C1_amended (s : MonitorState) (read2 : Option (List Row)) (file : List Row)
    (h : s.last_count < file.length) :
    (detect_cycle s none read2).2 = none ∧
    (detect_cycle s none read2).1.last_count = 0 ∧
    (detect_cycle s none read2).1.last_modified = s.last_modified ∧
    detect_cycle s (some file) none = (s, none) := by
  obtain ⟨a, b, c⟩ := detect_cycle_read1_none s read2
  exact ⟨a, b, c, detect_cycle_read2_none s file h⟩

/-- C1 witness: the amended statement at Baseline 3 and a 5-row file. -/
theorem C1_witness :
    (detect_cycle { last_count := 3, last_modified := 0 } none none).2 = none ∧
    (detect_cycle { last_count := 3, last_modified := 0 } none none).1.last_count = 0 ∧
    (detect_cycle { last_count := 3, last_modified := 0 } none none).1.last_modified = 0 ∧
    detect_cycle { last_count := 3, last_modified := 0 } (some (mkRows 5)) none =
      ({ last_count := 3, last_modified := 0 }, none) :=
  C1_amended { last_count := 3, last_modified := 0 } none (mkRows 5) (by decide)

/-! ### C2 — growth emits the tail delta, reset re-baselines silently -/

/-- C2: on a debounce-surviving signal with observed count C, if
C exceeds the Baseline B the watcher emits exactly one event with
addedCount C - B, totalCount C and the last C - B rows as summaries,
and commits Baseline C; if C is below B it emits nothing and commits
Baseline C. -/
theorem C2_growth_reset (s : MonitorState) (ev : FSEvent) (t : Rat) (file : List Row)
    (hacc : signal_accepted s ev t = true) :
    (s.last_count < file.length →
      on_modified s ev t (some file) (some file) =
        ({ last_count := file.length, last_modified := t },
          some { addedCount := file.length - s.last_count
                 totalCount := file.length
                 newRows := (file.drop s.last_count).map rowInfo })) ∧
    (file.length < s.last_count →
      on_modified s ev t (some file) (some file) =
        ({ last_count := file.length, last_modified := t }, none)) := by
  constructor
  · intro h
    show (if signal_accepted s ev t then
        detect_cycle { s with last_modified := t } (some file) (some file)
      else (s, none)) = _
    rw [hacc, if_pos rfl, detect_cycle_growth { s with last_modified := t } file h]
  · intro h
    show (if signal_accepted s ev t then
        detect_cycle { s with last_modified := t } (some file) (some file)
      else (s, none)) = _
    rw [hacc, if_pos rfl, detect_cycle_reset { s with last_modified := t } file h]

/-- C2 witness: the growth-reset-growth scenario 20 to 23, 23 to 5,
5 to 8 yields exactly the two events (3, 23, rows 20..22) and
(3, 8, rows 5..7). -/
theorem C2_witness :
    on_modified { last_count := 20, last_modified := 0 } evCSV 1
        (some (mkRows 23)) (some (mkRows 23)) =
      ({ last_count := 23, last_modified := 1 },
        some { addedCount := 3, totalCount := 23
               newRows := ((mkRows 23).drop 20).map rowInfo }) ∧
    on_modified { last_count := 23, last_modified := 1 } evCSV 2
        (some (mkRows 5)) (some (mkRows 5)) =
      ({ last_count := 5, last_modified := 2 }, none) ∧
    on_modified { last_count := 5, last_modified := 2 } evCSV 3
        (some (mkRows 8)) (some (mkRows 8)) =
      ({ last_count := 8, last_modified := 3 },
        some { addedCount := 3, totalCount := 8
               newRows := ((mkRows 8).drop 5).map rowInfo }) := by
  refine ⟨?_, ?_, ?_⟩
  · have h := (C2_growth_reset { last_count := 20, last_modified := 0 } evCSV 1
      (mkRows 23)
      (signal_accepted_of _ evCSV 1 rfl (by decide) (by norm_num [debounce_delay]))).1
      (by simp [mkRows])
    simpa [mkRows] using h
  · have h := (C2_growth_reset { last_count := 23, last_modified := 1 } evCSV 2
      (mkRows 5)
      (signal_accepted_of _ evCSV 2 rfl (by decide) (by norm_num [debounce_delay]))).2
      (by simp [mkRows])
    simpa [mkRows] using h
  · have h := (C2_growth_reset { last_count := 5, last_modified := 2 } evCSV 3
      (mkRows 8)
      (signal_accepted_of _ evCSV 3 rfl (by decide) (by norm_num [debounce_delay]))).1
      (by simp [mkRows])
    simpa [mkRows] using h

/-! ### C4 — wire shape of the change event -/

/-- C4 counterexample: the claim says the type discriminator equals the
string "new_rows"; the message built by notify_new_images carries
"new_image" instead. -/
theorem C4_counterexample :
    (notify_new_images 1 2 [] "t").type = "new_image" ∧
    (notify_new_images 1 2 [] "t").type ≠ "new_rows" := by
  exact ⟨rfl, by decide⟩

/-- C4 amended: every change message sent to subscribers has the wire
shape type "new_image", count, total, images (the row summaries) and
timestamp. -/
theorem C4_amended (count total : Nat) (info : List RowSummary) (now : String) :
    notify_new_images count total info now =
      { type := "new_image", count := count, total := total
        images := info, timestamp := now } :=
  rfl

/-! ### Helper lemmas: broadcast pruning -/

/-- Disconnecting without a channel never touches the channel map. -/
theorem foldl_disconnect_channels (dead : List WS) :
    ∀ (m : ConnManager),
      (dead.foldl (fun acc c => disconnect acc c none) m).channels = m.channels := by
  induction dead with
  | nil => intro m; rfl
  | cons c rest ih => intro m; rw [List.foldl_cons]; exact ih (disconnect m c none)

/-- Membership in the global registry after pruning a list of dead
connections without a channel. -/
theorem mem_foldl_disconnect_active (dead : List WS) :
    ∀ (m : ConnManager) (s : WS),
      s ∈ (dead.foldl (fun acc c => disconnect acc c none) m).active_connections ↔
        s ∈ m.active_connections ∧ s ∉ dead := by
  induction dead with
  | nil => intro m s; simp
  | cons c rest ih =>
    intro m s
    rw [List.foldl_cons, ih]
    show s ∈ (m.active_connections.filter (· ≠ c)) ∧ s ∉ rest ↔ _
    simp only [List.mem_filter, List.mem_cons, not_or, decide_eq_true_eq]
    tauto

/-- Unfolding the channel-set removal over the head map entry. -/
theorem removeFromChannel_cons (p : String × List WS) (rest : List (String × List WS))
    (ch : String) (w : WS) :
    removeFromChannel (p :: rest) ch w =
      if p.1 = ch then
        (if (p.2.filter (· ≠ w)).isEmpty then removeFromChannel rest ch w
         else (p.1, p.2.filter (· ≠ w)) :: removeFromChannel rest ch w)
      else p :: removeFromChannel rest ch w := rfl

/-- Lookup of one key skips an entry stored under a different key. -/
theorem lookup_cons_ne (a k : String) (b : List WS) (es : List (String × List WS))
    (h : a ≠ k) : ((k, b) :: es).lookup a = es.lookup a := by
  rw [List.lookup_cons, beq_false_of_ne h]

/-- Removing from a channel absent from the map is the identity. -/
theorem removeFromChannel_of_no_key (chs : List (String × List WS)) (ch : String)
    (w : WS) (h : ∀ q ∈ chs, q.1 ≠ ch) : removeFromChannel chs ch w = chs := by
  induction chs with
  | nil => rfl
  | cons p rest ih =>
    rw [removeFromChannel_cons, if_neg (h p (by simp)),
      ih (fun q hq => h q (by simp [hq]))]

/-- The channel-set removal keeps the key list a sublist. -/
theorem removeFromChannel_keys (chs : List (String × List WS)) (ch : String) (w : WS) :
    ((removeFromChannel chs ch w).map Prod.fst).Sublist (chs.map Prod.fst) := by
  induction chs with
  | nil => simp [removeFromChannel]
  | cons p rest ih =>
    rw [removeFromChannel_cons]
    by_cases hp : p.1 = ch
    · rw [if_pos hp]
      by_cases he : (p.2.filter (· ≠ w)).isEmpty
      · rw [if_pos he]
        exact ih.trans (List.sublist_cons_self _ _)
      · rw [if_neg he]
        simp only [List.map_cons]
        exact ih.cons₂ p.1
    · rw [if_neg hp]
      simp only [List.map_cons]
      exact ih.cons₂ p.1

/-- The channel-set removal leaves every other channel lookup intact. -/
theorem lookup_removeFromChannel_ne (chs : List (String × List WS)) (ch ch2 : String)
    (w : WS) (h : ch2 ≠ ch) :
    (removeFromChannel chs ch w).lookup ch2 = chs.lookup ch2 := by
  induction chs with
  | nil => rfl
  | cons p rest ih =>
    obtain ⟨a, b⟩ := p
    rw [removeFromChannel_cons]
    by_cases hp : a = ch
    · have hne : ch2 ≠ a := by rw [hp]; exact h
      rw [if_pos hp]
      by_cases he : (b.filter (· ≠ w)).isEmpty
      · rw [if_pos he, ih, lookup_cons_ne ch2 a b rest hne]
      · rw [if_neg he, lookup_cons_ne ch2 a _ _ hne, ih,
          lookup_cons_ne ch2 a b rest hne]
    · rw [if_neg hp]
      by_cases hq : ch2 = a
      · subst hq
        simp [List.lookup_cons_self]
      · rw [lookup_cons_ne ch2 a b _ hq, lookup_cons_ne ch2 a b rest hq, ih]

/-- After removal with unique keys, the removed subscriber is absent
from the targeted channel set. -/
theorem not_mem_removeFromChannel_self (chs : List (String × List WS)) (ch : String)
    (w : WS) (hnd : (chs.map Prod.fst).Nodup) :
    w ∉ ((removeFromChannel chs ch w).lookup ch).getD [] := by
  induction chs with
  | nil => simp [removeFromChannel]
  | cons p rest ih =>
    obtain ⟨a, b⟩ := p
    simp only [List.map_cons, List.nodup_cons] at hnd
    rw [removeFromChannel_cons]
    by_cases hp : a = ch
    · subst hp
      rw [if_pos rfl]
      by_cases he : (b.filter (· ≠ w)).isEmpty
      · rw [if_pos he]
        have hno : ∀ q ∈ rest, q.1 ≠ a := fun q hq hc =>
          hnd.1 (hc ▸ List.mem_map_of_mem Prod.fst hq)
        rw [removeFromChannel_of_no_key rest a w hno,
          List.lookup_eq_none_iff.mpr (fun q hq => bne_iff_ne.mpr (Ne.symm (hno q hq)))]
        simp
      · rw [if_neg he, List.lookup_cons_self]
        simp
    · rw [if_neg hp, lookup_cons_ne ch a b _ (fun hc => hp hc.symm)]
      exact ih hnd.2

/-- With unique keys, a member of a channel set after a removal was a
member before and is not the removed subscriber. -/
theorem mem_removeFromChannel_lookup (chs : List (String × List WS)) (ch : String)
    (w x : WS) (hnd : (chs.map Prod.fst).Nodup)
    (hx : x ∈ ((removeFromChannel chs ch w).lookup ch).getD []) :
    x ∈ ((chs.lookup ch).getD []) ∧ x ≠ w := by
  induction chs with
  | nil => simp [removeFromChannel] at hx
  | cons p rest ih =>
    obtain ⟨a, b⟩ := p
    simp only [List.map_cons, List.nodup_cons] at hnd
    rw [removeFromChannel_cons] at hx
    by_cases hp : a = ch
    · subst hp
      rw [if_pos rfl] at hx
      by_cases he : (b.filter (· ≠ w)).isEmpty
      · rw [if_pos he] at hx
        have hno : ∀ q ∈ rest, q.1 ≠ a := fun q hq hc =>
          hnd.1 (hc ▸ List.mem_map_of_mem Prod.fst hq)
        rw [removeFromChannel_of_no_key rest a w hno,
          List.lookup_eq_none_iff.mpr (fun q hq => bne_iff_ne.mpr (Ne.symm (hno q hq)))] at hx
        simp at hx
      · rw [if_neg he, List.lookup_cons_self] at hx
        simp only [Option.getD_some, List.mem_filter, decide_eq_true_eq] at hx
        rw [List.lookup_cons_self]
        simpa using hx
    · rw [if_neg hp, lookup_cons_ne ch a b _ (fun hc => hp hc.symm)] at hx
      rw [lookup_cons_ne ch a b rest (fun hc => hp hc.symm)]
      exact ih hnd.2 hx

/-- The global registry behaves under channel-targeted pruning exactly
as under channel-less pruning. -/
theorem mem_foldl_disconnect_active_some (dead : List WS) (ch : String) :
    ∀ (m : ConnManager) (s : WS),
      s ∈ (dead.foldl (fun acc c => disconnect acc c (some ch)) m).active_connections ↔
        s ∈ m.active_connections ∧ s ∉ dead := by
  induction dead with
  | nil => intro m s; simp
  | cons c rest ih =>
    intro m s
    rw [List.foldl_cons, ih]
    show s ∈ (m.active_connections.filter (· ≠ c)) ∧ s ∉ rest ↔ _
    simp only [List.mem_filter, List.mem_cons, not_or, decide_eq_true_eq]
    tauto

/-- Channel-targeted disconnection preserves key uniqueness. -/
theorem disconnect_keys_nodup (m : ConnManager) (c : WS) (ch : String)
    (hnd : (m.channels.map Prod.fst).Nodup) :
    (((disconnect m c (some ch)).channels).map Prod.fst).Nodup :=
  hnd.sublist (removeFromChannel_keys m.channels ch c)

/-- Channel-targeted pruning never touches another channel lookup. -/
theorem foldl_disconnect_lookup_ne (dead : List WS) (ch ch2 : String) (h : ch2 ≠ ch) :
    ∀ (m : ConnManager),
      ((dead.foldl (fun acc c => disconnect acc c (some ch)) m).channels).lookup ch2 =
        m.channels.lookup ch2 := by
  induction dead with
  | nil => intro m; rfl
  | cons c rest ih =>
    intro m
    rw [List.foldl_cons, ih]
    exact lookup_removeFromChannel_ne m.channels ch ch2 c h

/-- Absence from the targeted channel is preserved by further pruning. -/
theorem not_mem_foldl_disconnect_channel (dead : List WS) (ch : String) (s : WS) :
    ∀ (m : ConnManager), (m.channels.map Prod.fst).Nodup →
      s ∉ ((m.channels.lookup ch).getD []) →
      s ∉ (((dead.foldl (fun acc c => disconnect acc c (some ch)) m).channels).lookup
        ch).getD [] := by
  induction dead with
  | nil => intro m _ h; exact h
  | cons c rest ih =>
    intro m hnd h
    rw [List.foldl_cons]
    refine ih _ (disconnect_keys_nodup m c ch hnd) ?_
    intro hmem
    exact h (mem_removeFromChannel_lookup m.channels ch c s hnd hmem).1

/-- A dead connection of a channel-targeted broadcast ends up outside
the targeted channel set. -/
theorem mem_dead_not_mem_channel (dead : List WS) (ch : String) (s : WS) :
    ∀ (m : ConnManager), (m.channels.map Prod.fst).Nodup → s ∈ dead →
      s ∉ (((dead.foldl (fun acc c => disconnect acc c (some ch)) m).channels).lookup
        ch).getD [] := by
  induction dead with
  | nil => intro m _ h; simp at h
  | cons c rest ih =>
    intro m hnd hs
    rw [List.foldl_cons]
    by_cases hc : s = c
    · subst hc
      exact not_mem_foldl_disconnect_channel rest ch s _
        (disconnect_keys_nodup m s ch hnd)
        (not_mem_removeFromChannel_self m.channels ch s hnd)
    · rcases List.mem_cons.mp hs with h1 | h2
      · exact absurd h1 hc
      · exact ih _ (disconnect_keys_nodup m c ch hnd) h2

/-! ### C3 — at-most-once delivery and pruning on failed delivery -/

/-- C3 counterexample. The claim says a subscriber whose delivery fails
is removed from all registries, the global set and every channel set.
With subscriber 7 in the global set and in channel "a", a channel-less
broadcast whose delivery to 7 fails removes 7 from the global set but
leaves it registered in channel "a". -/
theorem C3_counterexample :
    (broadcast { active_connections := [7], channels := [("a", [7])] }
        (fun _ => false) none).2 = [] ∧
    (broadcast { active_connections := [7], channels := [("a", [7])] }
        (fun _ => false) none).1.active_connections = [] ∧
    (broadcast { active_connections := [7], channels := [("a", [7])] }
        (fun _ => false) none).1.channels = [("a", [7])] := by
  decide

/-- C3 amended, for both broadcast forms (registries are sets, i.e.
duplicate-free lists, and the channel map has unique keys, as a Python
dict of sets has). Channel-less broadcast: every subscriber receives at
most once, a successful subscriber exactly once; a failed subscriber
receives nothing, is pruned from the global registry and never retried,
and the channel map is left entirely unchanged. Channel-targeted
broadcast: every subscriber of the channel receives at most once, a
successful one exactly once; a failed subscriber receives nothing, is
never retried, is pruned from the global registry and from the targeted
channel set, while every other channel lookup — hence every other
registration — is left intact. -/
theorem C3_broadcast (m : ConnManager) (ok : WS → Bool) (s : WS) (ch : String)
    (hnd : m.active_connections.Nodup)
    (hkeys : (m.channels.map Prod.fst).Nodup)
    (hchnd : ((m.channels.lookup ch).getD []).Nodup) :
    (broadcast m ok none).2.count s ≤ 1 ∧
    (s ∈ m.active_connections → ok s = true → (broadcast m ok none).2.count s = 1) ∧
    (ok s = false → s ∉ (broadcast m ok none).2) ∧
    (ok s = false → s ∉ (broadcast m ok none).1.active_connections) ∧
    (broadcast m ok none).1.channels = m.channels ∧
    (broadcast m ok (some ch)).2.count s ≤ 1 ∧
    (s ∈ (m.channels.lookup ch).getD [] → ok s = true →
      (broadcast m ok (some ch)).2.count s = 1) ∧
    (ok s = false → s ∉ (broadcast m ok (some ch)).2) ∧
    (s ∈ (m.channels.lookup ch).getD [] → ok s = false →
      s ∉ (broadcast m ok (some ch)).1.active_connections) ∧
    (s ∈ (m.channels.lookup ch).getD [] → ok s = false →
      s ∉ (((broadcast m ok (some ch)).1.channels.lookup ch).getD [])) ∧
    (∀ ch2, ch2 ≠ ch →
      (broadcast m ok (some ch)).1.channels.lookup ch2 = m.channels.lookup ch2) := by
  have hdel : (broadcast m ok none).2 = m.active_connections.filter ok := rfl
  have hstate : (broadcast m ok none).1 =
      (m.active_connections.filter (fun c => !ok c)).foldl
        (fun acc c => disconnect acc c none) m := rfl
  have hdel2 : (broadcast m ok (some ch)).2 =
      ((m.channels.lookup ch).getD []).filter ok := rfl
  have hstate2 : (broadcast m ok (some ch)).1 =
      (((m.channels.lookup ch).getD []).filter (fun c => !ok c)).foldl
        (fun acc c => disconnect acc c (some ch)) m := rfl
  refine ⟨?_, ?_, ?_, ?_, ?_, ?_, ?_, ?_, ?_, ?_, ?_⟩
  · rw [hdel]
    exact le_trans ((List.filter_sublist _).count_le s)
      (List.nodup_iff_count_le_one.mp hnd s)
  · intro hs hok
    rw [hdel]
    exact List.count_eq_one_of_mem (hnd.filter ok) (List.mem_filter.mpr ⟨hs, hok⟩)
  · intro hok hmem
    rw [hdel] at hmem
    have := (List.mem_filter.mp hmem).2
    rw [hok] at this
    exact absurd this (by simp)
  · intro hok hmem
    rw [hstate] at hmem
    obtain ⟨ha, hnotdead⟩ := (mem_foldl_disconnect_active _ _ _).mp hmem
    exact hnotdead (List.mem_filter.mpr ⟨ha, by rw [hok]; rfl⟩)
  · rw [hstate]
    exact foldl_disconnect_channels _ m
  · rw [hdel2]
    exact le_trans ((List.filter_sublist _).count_le s)
      (List.nodup_iff_count_le_one.mp hchnd s)
  · intro hs hok
    rw [hdel2]
    exact List.count_eq_one_of_mem (hchnd.filter ok) (List.mem_filter.mpr ⟨hs, hok⟩)
  · intro hok hmem
    rw [hdel2] at hmem
    have := (List.mem_filter.mp hmem).2
    rw [hok] at this
    exact absurd this (by simp)
  · intro hs hok hmem
    rw [hstate2] at hmem
    obtain ⟨_, hnotdead⟩ := (mem_foldl_disconnect_active_some _ ch _ _).mp hmem
    exact hnotdead (List.mem_filter.mpr ⟨hs, by rw [hok]; rfl⟩)
  · intro hs hok
    rw [hstate2]
    exact mem_dead_not_mem_channel _ ch s m hkeys
      (List.mem_filter.mpr ⟨hs, by rw [hok]; rfl⟩)
  · intro ch2 h
    rw [hstate2]
    exact foldl_disconnect_lookup_ne _ ch ch2 h m

/-- A concrete registry state used by the C3 witness: subscriber 2 is
registered globally, in channel "a" and in channel "b". -/
def mC3 : ConnManager :=
  { active_connections := [1, 2, 3], channels := [("a", [2]), ("b", [2, 3])] }

/-- Delivery that fails exactly for subscriber 2, used by the C3 witness. -/
def okNotTwo : WS → Bool := fun w => w != 2

/-- C3 witness, both broadcast forms on a concrete registry. Channel-less:
subscriber 1 receives exactly once; subscriber 2 receives nothing, is
pruned from the global registry, and the channel map is untouched.
Targeted at channel "a": subscriber 2 receives nothing, is pruned from
the global registry and from channel "a", while its registration in
channel "b" survives. -/
theorem C3_witness :
    (broadcast mC3 okNotTwo none).2.count 1 = 1 ∧
    (2 : WS) ∉ (broadcast mC3 okNotTwo none).2 ∧
    (2 : WS) ∉ (broadcast mC3 okNotTwo none).1.active_connections ∧
    (broadcast mC3 okNotTwo none).1.channels = mC3.channels ∧
    (broadcast mC3 okNotTwo (some "a")).2.count 1 ≤ 1 ∧
    (2 : WS) ∉ (broadcast mC3 okNotTwo (some "a")).2 ∧
    (2 : WS) ∉ (broadcast mC3 okNotTwo (some "a")).1.active_connections ∧
    (2 : WS) ∉ (((broadcast mC3 okNotTwo (some "a")).1.channels.lookup "a").getD []) ∧
    (broadcast mC3 okNotTwo (some "a")).1.channels.lookup "b" = some [2, 3] := by
  obtain ⟨a1, a2, a3, a4, a5, a6, a7, a8, a9, a10, a11⟩ :=
    C3_broadcast mC3 okNotTwo 1 "a" (by decide) (by decide) (by decide)
  obtain ⟨b1, b2, b3, b4, b5, b6, b7, b8, b9, b10, b11⟩ :=
    C3_broadcast mC3 okNotTwo 2 "a" (by decide) (by decide) (by decide)
  exact ⟨a2 (by decide) (by decide), b3 (by decide), b4 (by decide), b5, a6,
    b8 (by decide), b9 (by decide) (by decide), b10 (by decide) (by decide),
    (b11 "b" (by decide)).trans (by decide)⟩

/-! ### Helper lemmas: the event-log store update -/

/-- One insertion grows the log by one, capped at 15. -/
theorem update_event_log_store_length (now : String) (w : WSStore) (l : List EventData) :
    (update_event_log_store now w l).length = min (l.length + 1) 15 := by
  simp only [update_event_log_store]
  split_ifs with h
  · have : l = [] := List.isEmpty_iff.mp h
    subst this
    simp
  · have hne : l ≠ [] := fun hh => h (by simp [hh])
    have hlen : 1 ≤ l.length := List.length_pos.mpr hne
    simp only [List.length_cons, List.length_take, List.length_map]
    omega

/-- The head of the log after insertion is the freshly inserted entry,
marked as newest. -/
theorem update_event_log_store_head (now : String) (w : WSStore) (l : List EventData) :
    (update_event_log_store now w l).head? =
      some { count := w.count, total := w.total, timestamp := now
             images := w.images, is_new := true } := by
  simp only [update_event_log_store]
  split_ifs <;> rfl

/-- Every retained entry other than the head is marked not-newest. -/
theorem update_event_log_store_tail (now : String) (w : WSStore) (l : List EventData) :
    ∀ e ∈ (update_event_log_store now w l).tail, e.is_new = false := by
  simp only [update_event_log_store]
  split_ifs with h
  · intro e he
    simp at he
  · intro e he
    have hm : e ∈ l.map (fun x => { x with is_new := false }) :=
      List.mem_of_mem_take he
    obtain ⟨x, _, rfl⟩ := List.mem_map.mp hm
    rfl

/-- Exactly one retained entry is marked newest after an insertion. -/
theorem update_event_log_store_countP (now : String) (w : WSStore) (l : List EventData) :
    ((update_event_log_store now w l).countP (fun e => e.is_new)) = 1 := by
  simp only [update_event_log_store]
  split_ifs with h
  · simp [List.countP_cons]
  · have hz : (((l.map (fun x => { x with is_new := false })).take 14).countP
        (fun e => e.is_new)) = 0 := by
      refine List.countP_eq_zero.mpr ?_
      intro e he
      have hm := List.mem_of_mem_take he
      obtain ⟨x, _, rfl⟩ := List.mem_map.mp hm
      simp
    simp [List.countP_cons, hz]

/-- Folding insertions from a short accumulator: the log length is the
number of events, capped at 15. -/
theorem runEvents_length_aux (evs : List (WSStore × String)) :
    ∀ (acc : List EventData), acc.length ≤ 15 →
      (evs.foldl (fun a p => update_event_log_store p.2 p.1 a) acc).length =
        min (acc.length + evs.length) 15 := by
  induction evs with
  | nil =>
    intro acc h
    simp
    omega
  | cons p rest ih =>
    intro acc h
    rw [List.foldl_cons, ih _ (by rw [update_event_log_store_length]; omega),
      update_event_log_store_length]
    simp only [List.length_cons]
    omega

/-- A nonempty fold of insertions ends with an insertion of the last
received event. -/
theorem runEvents_last_form (evs : List (WSStore × String)) :
    ∀ (p : WSStore × String) (acc : List EventData), evs.getLast? = some p →
      ∃ l, evs.foldl (fun a q => update_event_log_store q.2 q.1 a) acc =
        update_event_log_store p.2 p.1 l := by
  induction evs with
  | nil =>
    intro p acc h
    simp at h
  | cons q rest ih =>
    intro p acc h
    cases rest with
    | nil =>
      simp at h
      subst h
      exact ⟨acc, by simp⟩
    | cons r rest2 =>
      rw [List.getLast?_cons_cons] at h
      rw [List.foldl_cons]
      exact ih p _ h

/-! ### C6 — bounded event log with a single newest mark -/

/-- C6: after any nonempty sequence of M received events the log holds
min(M, 15) entries; its head is the entry built from the most recently
received event, marked newest; exactly one retained entry carries the
newest mark; and every other entry is marked not-newest. -/
theorem C6_event_log (evs : List (WSStore × String)) (p : WSStore × String)
    (h : evs.getLast? = some p) :
    (runEvents evs).length = min evs.length 15 ∧
    (runEvents evs).head? =
      some { count := p.1.count, total := p.1.total, timestamp := p.2
             images := p.1.images, is_new := true } ∧
    ((runEvents evs).countP (fun e => e.is_new)) = 1 ∧
    ∀ e ∈ (runEvents evs).tail, e.is_new = false := by
  obtain ⟨l, hl⟩ := runEvents_last_form evs p [] h
  refine ⟨?_, ?_, ?_, ?_⟩
  · have := runEvents_length_aux evs [] (by simp)
    simpa [runEvents] using this
  · rw [runEvents, hl]
    exact update_event_log_store_head p.2 p.1 l
  · rw [runEvents, hl]
    exact update_event_log_store_countP p.2 p.1 l
  · rw [runEvents, hl]
    exact update_event_log_store_tail p.2 p.1 l

/-- A concrete received event used by the C6 witness. -/
def wC6 : WSStore × String := ({ count := 1, total := 2, images := [] }, "t")

/-- C6 witness: after 16 received events the log holds exactly 15
entries, headed by the newest one, with a single newest mark. -/
theorem C6_witness :
    (runEvents (List.replicate 16 wC6)).length = 15 ∧
    (runEvents (List.replicate 16 wC6)).head? =
      some { count := 1, total := 2, timestamp := "t", images := [], is_new := true } ∧
    ((runEvents (List.replicate 16 wC6)).countP (fun e => e.is_new)) = 1 ∧
    ∀ e ∈ (runEvents (List.replicate 16 wC6)).tail, e.is_new = false := by
  have h := C6_event_log (List.replicate 16 wC6) wC6 (by decide)
  exact ⟨by simpa using h.1, h.2.1, h.2.2.1, h.2.2.2⟩

/-! ### C10 — pending badge shown even while frozen, flag negated -/

/-- C10: on every received event the event-log handler makes the pending
badge visible unconditionally (display inline-block even while frozen)
while the stored pending-refresh flag is the negation of freeze, so the
visible badge disagrees with the stored flag exactly when frozen. -/
theorem C10_badge (w : WSStore) (existing : List EventData) (pending : Bool)
    (enr : List String) (frozen : Bool) (now : String) :
    ∃ out, update_event_log (some w) existing pending enr frozen now = some out ∧
      out.badge_display = "inline-block" ∧
      out.pending_flag = !frozen ∧
      ((out.pending_flag ≠ true ∧ out.badge_display = "inline-block") ↔ frozen = true) := by
  refine ⟨_, rfl, rfl, rfl, ?_⟩
  cases frozen <;> simp

/-! ### C8 — freeze gates the active consumers but not the log -/

/-- C8: while freeze is on, a websocket-triggered invocation of the live
time-series view and of the live table view is a no-op (Dash no-update),
whereas the event-log handler still produces its full update (badge
shown, log advanced) on the same event. -/
theorem C8_freeze (m : WSMessage) (pt : Option String) (coord : Option Int) (c : Int)
    (sel : Option (List Nat)) (clk : Option Nat) (stored : Option (List Row))
    (file file2 : List Row) (w : WSStore) (existing : List EventData)
    (pending : Bool) (enr : List String) (now : String) :
    update_time_series Trigger.ws pt coord (some m) true file = TSOut.noUpdate ∧
    update_table Trigger.ws sel clk stored (some m) (some c) true file2 = TableOut.noUpdate ∧
    ∃ out, update_event_log (some w) existing pending enr true now = some out ∧
      out.badge_display = "inline-block" ∧
      out.events = update_event_log_store now w existing := by
  exact ⟨rfl, rfl, _, rfl, rfl, rfl⟩

/-! ### C5 — identity of the per-event "is new" marking -/

/-- A concrete store payload whose image has distinct filename and patch
path, used by the C5 counterexample. -/
def wC5 : WSStore :=
  { count := 1, total := 5, images := [⟨"a.czi", 1, "p1"⟩] }

/-- C5 counterexample. The claim says the per-row new-marking set is
always built from the stable patch-path identity, never the filename.
The event-log handler writes the new-rows store from the filename field:
for an event whose single row has filename "a.czi" and patch path "p1",
the store receives ["a.czi"], not the identity list ["p1"]. -/
theorem C5_counterexample :
    wC5.images.map (fun s => s.patch_path) = ["p1"] ∧
    ((update_event_log (some wC5) [] false [] false "t").map EventLogOut.new_rows) =
      some ["a.czi"] ∧
    (["a.czi"] : List String) ≠ ["p1"] := by
  decide

/-- C5 amended: for a growth event, the summaries shipped in the event
are exactly those of the appended rows; the live time-series and table
consumers build their per-event marking from the patch-path identities
of this event only (never cumulatively), so — when patch paths are
unique across the file — exactly the appended rows are marked new; the
event-log handler, however, fills the new-rows store with the per-event
filename field rather than the patch-path identities. -/
theorem C5_marking (base news : List Row) (lm : Rat)
    (existing : List EventData) (pending : Bool) (enr : List String)
    (frozen : Bool) (now : String)
    (hne : news ≠ [])
    (hnd : ((base ++ news).map (fun r => r.patches_2d_ch0_tl_exp_path)).Nodup) :
    (detect_cycle { last_count := base.length, last_modified := lm }
        (some (base ++ news)) (some (base ++ news))).2 =
      some { addedCount := (base ++ news).length - base.length
             totalCount := (base ++ news).length
             newRows := news.map rowInfo } ∧
    mark_is_new (base ++ news) ((news.map rowInfo).map (fun s => s.patch_path)) =
      base.map (fun r => (r, false)) ++ news.map (fun r => (r, true)) ∧
    ((update_event_log
        (some { count := (base ++ news).length - base.length
                total := (base ++ news).length
                images := news.map rowInfo })
        existing pending enr frozen now).map EventLogOut.new_rows) =
      some (news.map (fun r => r.czi_filename)) := by
  have hlen : base.length < (base ++ news).length := by
    simp [List.length_append]
    exact List.length_pos.mpr hne
  have hids : (news.map rowInfo).map (fun s => s.patch_path) =
      news.map (fun r => r.patches_2d_ch0_tl_exp_path) := by
    simp [List.map_map, Function.comp, rowInfo]
  have hdisj : (base.map (fun r => r.patches_2d_ch0_tl_exp_path)).Disjoint
      (news.map (fun r => r.patches_2d_ch0_tl_exp_path)) := by
    rw [List.map_append, List.nodup_append] at hnd
    exact hnd.2.2
  refine ⟨?_, ?_, ?_⟩
  · rw [detect_cycle_growth { last_count := base.length, last_modified := lm }
      (base ++ news) hlen, List.drop_left]
  · rw [hids, mark_is_new, List.map_append]
    congr 1
    · apply List.map_congr_left
      intro r hr
      have hnm : r.patches_2d_ch0_tl_exp_path ∉
          news.map (fun x => x.patches_2d_ch0_tl_exp_path) :=
        hdisj (List.mem_map_of_mem _ hr)
      simp [List.contains, List.elem_eq_mem, hnm]
    · apply List.map_congr_left
      intro r hr
      have hm : r.patches_2d_ch0_tl_exp_path ∈
          news.map (fun x => x.patches_2d_ch0_tl_exp_path) :=
        List.mem_map_of_mem _ hr
      simp [List.contains, List.elem_eq_mem, hm]
  · simp [update_event_log, List.map_map, Function.comp, rowInfo]

/-- C5 witness: one existing row, one appended row, distinct patch
paths; the appended row alone is marked and the event-log store gets the
filename, not the identity. -/
theorem C5_witness :
    (detect_cycle { last_count := [mkRow 0].length, last_modified := 0 }
        (some ([mkRow 0] ++ [mkRow 1])) (some ([mkRow 0] ++ [mkRow 1]))).2 =
      some { addedCount := ([mkRow 0] ++ [mkRow 1]).length - [mkRow 0].length
             totalCount := ([mkRow 0] ++ [mkRow 1]).length
             newRows := [mkRow 1].map rowInfo } ∧
    mark_is_new ([mkRow 0] ++ [mkRow 1])
        (([mkRow 1].map rowInfo).map (fun s => s.patch_path)) =
      [mkRow 0].map (fun r => (r, false)) ++ [mkRow 1].map (fun r => (r, true)) ∧
    ((update_event_log
        (some { count := ([mkRow 0] ++ [mkRow 1]).length - [mkRow 0].length
                total := ([mkRow 0] ++ [mkRow 1]).length
                images := [mkRow 1].map rowInfo })
        [] false [] false "t").map EventLogOut.new_rows) =
      some ([mkRow 1].map (fun r => r.czi_filename)) :=
  C5_marking [mkRow 0] [mkRow 1] 0 [] false [] false "t" (by decide) (by decide)

/-! ### Helper lemmas: debounce coalescing -/

/-- The detection cycle never touches the debounce clock. -/
theorem detect_cycle_last_modified (s : MonitorState) (read1 read2 : Option (List Row)) :
    (detect_cycle s read1 read2).1.last_modified = s.last_modified := by
  rcases read2 with _ | df <;>
    · simp only [detect_cycle]
      split_ifs <;> rfl

/-- A guard-rejected signal leaves the state untouched and emits nothing. -/
theorem on_modified_rejected (s : MonitorState) (ev : FSEvent) (t : Rat)
    (read1 read2 : Option (List Row)) (h : signal_accepted s ev t = false) :
    on_modified s ev t read1 read2 = (s, none) := by
  simp [on_modified, h]

/-- A surviving signal stamps the debounce clock with its arrival time. -/
theorem on_modified_accepted_lm (s : MonitorState) (ev : FSEvent) (t : Rat)
    (read1 read2 : Option (List Row)) (h : signal_accepted s ev t = true) :
    (on_modified s ev t read1 read2).1.last_modified = t := by
  simp [on_modified, h, detect_cycle_last_modified]

/-- A signal inside the debounce window after the last surviving one
fails the guard. -/
theorem signal_rejected_of_lt (s : MonitorState) (ev : FSEvent) (t : Rat)
    (h : t - s.last_modified < debounce_delay) :
    signal_accepted s ev t = false := by
  simp [signal_accepted, h]

/-- Unfolding the processed-cycle count over one signal. -/
theorem runSignals_cons_count (s : MonitorState) (g : Signal) (rest : List Signal) :
    (runSignals s (g :: rest)).2.2 =
      (if signal_accepted s g.ev g.t then 1 else 0) +
        (runSignals (on_modified s g.ev g.t g.read1 g.read2).1 rest).2.2 :=
  rfl

/-- If every signal of a batch falls inside the debounce window after
the current clock, none is processed. -/
theorem runSignals_none_processed (sigs : List Signal) :
    ∀ (s : MonitorState),
      (∀ g ∈ sigs, g.t - s.last_modified < debounce_delay) →
      (runSignals s sigs).2.2 = 0 := by
  induction sigs with
  | nil => intro s _; rfl
  | cons g rest ih =>
    intro s h
    have hrej : signal_accepted s g.ev g.t = false :=
      signal_rejected_of_lt s g.ev g.t (h g (by simp))
    rw [runSignals_cons_count, hrej,
      on_modified_rejected s g.ev g.t g.read1 g.read2 hrej]
    simpa using ih s (fun g' hg' => h g' (by simp [hg']))

/-- Signals confined to one debounce window yield at most one processed
cycle: the first surviving one stamps the clock, putting every later
signal of the window inside the debounce interval. -/
theorem runSignals_window (sigs : List Signal) (a : Rat) :
    ∀ (s : MonitorState),
      (∀ g ∈ sigs, a ≤ g.t ∧ g.t - a < debounce_delay) →
      (runSignals s sigs).2.2 ≤ 1 := by
  induction sigs with
  | nil => intro s _; exact Nat.zero_le 1
  | cons g rest ih =>
    intro s hw
    by_cases hacc : signal_accepted s g.ev g.t = true
    · have hlm : (on_modified s g.ev g.t g.read1 g.read2).1.last_modified = g.t :=
        on_modified_accepted_lm s g.ev g.t g.read1 g.read2 hacc
      have hrest : (runSignals (on_modified s g.ev g.t g.read1 g.read2).1 rest).2.2 = 0 := by
        apply runSignals_none_processed
        intro g' hg'
        rw [hlm]
        have h1 := (hw g (by simp)).1
        have h2 := (hw g' (by simp [hg'])).2
        linarith
      rw [runSignals_cons_count, hacc, hrest]
      simp
    · have hrej : signal_accepted s g.ev g.t = false := by
        cases hb : signal_accepted s g.ev g.t
        · rfl
        · exact absurd hb hacc
      rw [runSignals_cons_count, hrej,
        on_modified_rejected s g.ev g.t g.read1 g.read2 hrej]
      simpa using ih s (fun g' hg' => hw g' (by simp [hg']))

/-! ### C9 — debounce ignores in-window signals, coalescing a burst -/

/-- C9: a signal arriving within the debounce window after the last
processed signal is ignored outright (state unchanged, nothing
emitted), and any batch of raw signals confined to one debounce window
yields at most one processed detection cycle. -/
theorem C9_debounce (s : MonitorState) (ev : FSEvent) (t : Rat)
    (read1 read2 : Option (List Row)) (sigs : List Signal) (a : Rat)
    (hw : ∀ g ∈ sigs, a ≤ g.t ∧ g.t - a < debounce_delay) :
    (t - s.last_modified < debounce_delay →
      on_modified s ev t read1 read2 = (s, none)) ∧
    (runSignals s sigs).2.2 ≤ 1 := by
  constructor
  · intro h
    exact on_modified_rejected s ev t read1 read2 (signal_rejected_of_lt s ev t h)
  · exact runSignals_window sigs a s hw

/-- A raw in-window signal on the tracked file, used by the C9 witness. -/
def sigC9 (t : Rat) : Signal :=
  { ev := evCSV, t := t, read1 := none, read2 := none }

/-- C9 witness: a signal 0.1s after the clock is ignored, and a burst of
three signals within 0.2s is processed at most once. -/
theorem C9_witness :
    on_modified { last_count := 0, last_modified := 10 } evCSV (101 / 10) none none =
      ({ last_count := 0, last_modified := 10 }, none) ∧
    (runSignals { last_count := 0, last_modified := 10 }
      [sigC9 10, sigC9 (101 / 10), sigC9 (102 / 10)]).2.2 ≤ 1 := by
  have h := C9_debounce { last_count := 0, last_modified := 10 } evCSV (101 / 10)
    none none [sigC9 10, sigC9 (101 / 10), sigC9 (102 / 10)] 10 ?_
  · exact ⟨h.1 (by norm_num [debounce_delay]), h.2⟩
  · intro g hg
    fin_cases hg <;> constructor <;> norm_num [sigC9, debounce_delay]

/-! ### Helper lemmas: decimal keys are injective in the row count -/

/-- Numeric value of a decimal digit character. -/
def digitVal (c : Char) : Nat := c.toNat - 48

/-- Decimal value of a digit string, most significant first. -/
def decDigits (l : List Char) : Nat :=
  l.foldl (fun a c => 10 * a + digitVal c) 0

/-- The digit characters 0-9 decode back to their values. -/
theorem digitVal_digitChar (d : Nat) (h : d < 10) :
    digitVal (Nat.digitChar d) = d := by
  interval_cases d <;> rfl

/-- The accumulator of the core digit printer is a plain suffix. -/
theorem toDigitsCore_acc (b : Nat) :
    ∀ (fuel n : Nat) (ds : List Char),
      Nat.toDigitsCore b fuel n ds = Nat.toDigitsCore b fuel n [] ++ ds := by
  intro fuel
  induction fuel with
  | zero => intro n ds; simp [Nat.toDigitsCore]
  | succ f ih =>
    intro n ds
    simp only [Nat.toDigitsCore]
    by_cases h : n / b = 0
    · simp [h]
    · rw [if_neg h, if_neg h, ih (n / b) (Nat.digitChar (n % b) :: ds),
        ih (n / b) [Nat.digitChar (n % b)]]
      simp

/-- The core digit printer ignores the exact fuel once it is sufficient. -/
theorem toDigitsCore_fuel (b : Nat) (hb : 2 ≤ b) :
    ∀ (n fuel1 fuel2 : Nat), n < fuel1 → n < fuel2 →
      Nat.toDigitsCore b fuel1 n [] = Nat.toDigitsCore b fuel2 n [] := by
  intro n
  induction n using Nat.strong_induction_on with
  | _ n ih =>
    intro fuel1 fuel2 h1 h2
    obtain ⟨k1, rfl⟩ : ∃ k, fuel1 = k + 1 := ⟨fuel1 - 1, by omega⟩
    obtain ⟨k2, rfl⟩ : ∃ k, fuel2 = k + 1 := ⟨fuel2 - 1, by omega⟩
    simp only [Nat.toDigitsCore]
    by_cases h : n / b = 0
    · simp [h]
    · rw [if_neg h, if_neg h,
        toDigitsCore_acc b k1 (n / b) [Nat.digitChar (n % b)],
        toDigitsCore_acc b k2 (n / b) [Nat.digitChar (n % b)]]
      have hnpos : 0 < n := by
        rcases Nat.eq_zero_or_pos n with h0 | h0
        · subst h0
          simp at h
        · exact h0
      have hdiv : n / b < n := Nat.div_lt_self hnpos (by omega)
      rw [ih (n / b) hdiv k1 k2 (by omega) (by omega)]

/-- Decoding after appending one digit. -/
theorem decDigits_append (l : List Char) (c : Char) :
    decDigits (l ++ [c]) = 10 * decDigits l + digitVal c := by
  simp [decDigits, List.foldl_append]

/-- Decoding is a left inverse of the decimal printer. -/
theorem decDigits_toDigits (n : Nat) : decDigits (Nat.toDigits 10 n) = n := by
  induction n using Nat.strong_induction_on with
  | _ n ih =>
    simp only [Nat.toDigits, Nat.toDigitsCore]
    by_cases h : n / 10 = 0
    · rw [if_pos h]
      simp [decDigits, digitVal_digitChar (n % 10) (by omega)]
      omega
    · rw [if_neg h,
        toDigitsCore_acc 10 n (n / 10) [Nat.digitChar (n % 10)]]
      have hdiv : n / 10 < n := Nat.div_lt_self (by omega) (by omega)
      rw [toDigitsCore_fuel 10 (by omega) (n / 10) n ((n / 10) + 1) hdiv (by omega)]
      rw [show Nat.toDigitsCore 10 ((n / 10) + 1) (n / 10) [] =
        Nat.toDigits 10 (n / 10) from rfl]
      rw [decDigits_append, ih (n / 10) hdiv,
        digitVal_digitChar (n % 10) (by omega)]
      omega

/-- The decimal printer for naturals is injective. -/
theorem nat_repr_inj (m n : Nat) (h : Nat.repr m = Nat.repr n) : m = n := by
  have hd : Nat.toDigits 10 m = Nat.toDigits 10 n := by
    have hdata := congrArg String.data h
    simpa [Nat.repr, List.asString] using hdata
  calc m = decDigits (Nat.toDigits 10 m) := (decDigits_toDigits m).symm
    _ = decDigits (Nat.toDigits 10 n) := by rw [hd]
    _ = n := decDigits_toDigits n

/-- Two UMAP cache keys with the same filter dimensions and distinct row
counts are distinct strings. -/
theorem umap_cache_key_inj (p : String) (c : Int) (n m : Nat)
    (h : umap_cache_key p c n = umap_cache_key p c m) : n = m := by
  have hd := congrArg String.data h
  simp only [umap_cache_key, String.data_append, List.append_assoc] at hd
  have h1 := List.append_cancel_left hd
  have h2 := List.append_cancel_left h1
  have h3 := List.append_cancel_left h2
  have h4 := List.append_cancel_left h3
  have h5 := List.append_cancel_left h4
  exact nat_repr_inj n m (String.ext h5)

/-! ### C7 — cache key discrimination and at-most-once compute -/

/-- C7: for a fixed key, a second getOrCompute call is a hit — the
memoized result is returned and the compute function is not invoked
again — while keys built from the same filter dimensions and different
row counts are distinct strings, so a changed discriminator computes
independently under its own key. -/
theorem C7_cache {V : Type} (cache : List (String × V)) (key : String) (v w : V)
    (p : String) (c : Int) (n m : Nat) (hne : n ≠ m) :
    (getOrCompute (getOrCompute cache key v).1 key w).2.2 = false ∧
    (getOrCompute (getOrCompute cache key v).1 key w).2.1 =
      (getOrCompute cache key v).2.1 ∧
    umap_cache_key p c n ≠ umap_cache_key p c m := by
  refine ⟨?_, ?_, fun h => hne (umap_cache_key_inj p c n m h)⟩
  · cases hl : cache.lookup key <;> simp [getOrCompute, hl, List.lookup]
  · cases hl : cache.lookup key <;> simp [getOrCompute, hl, List.lookup]

/-- C7 witness: a miss-then-hit on one key (the second call is not a
recompute and yields the first result), and the keys for row counts 5
and 6 under the same filter are distinct. -/
theorem C7_witness :
    (getOrCompute (getOrCompute ([] : List (String × Nat)) "k" 0).1 "k" 1).2.2 = false ∧
    (getOrCompute (getOrCompute ([] : List (String × Nat)) "k" 0).1 "k" 1).2.1 =
      (getOrCompute ([] : List (String × Nat)) "k" 0).2.1 ∧
    umap_cache_key "tl_exp" 3 5 ≠ umap_cache_key "tl_exp" 3 6 :=
  C7_cache [] "k" 0 1 "tl_exp" 3 5 6 (by decide)
